import Mathlib

/-!
# Verification of the vircadia permission record and account manager

Shallow embedding of the two visible source files of the repository:

* `libraries/networking/src/NodePermissions.h` — an identity-tagged record of
  boolean capability flags with merge and (de)serialization helpers;
* `libraries/shared/src/AccountManager.cpp` — an OAuth-style token cache keyed
  by root URL, with authenticated request dispatch and JSON callbacks.

Qt containers (`QMap`) are embedded as association lists with `QMap` value
semantics (`value` returns a default for an absent key, `insert` replaces,
`remove` deletes).  Effects of the C++ methods (network calls, emitted
signals, settings writes, callback invocations) are returned explicitly.
-/

set_option autoImplicit false

namespace Vircadia

/-! ## QMap embedding -/

/-- `QMap::value(k)`: the value stored under `k`, or the default `d` when the
key is absent. -/
def qmapValue {κ α : Type} [DecidableEq κ] (d : α) : List (κ × α) → κ → α
  | [], _ => d
  | (k', v) :: rest, k => if k' = k then v else qmapValue d rest k

/-- Lookup returning `none` when the key is absent. -/
def qmapLookup {κ α : Type} [DecidableEq κ] : List (κ × α) → κ → Option α
  | [], _ => none
  | (k', v) :: rest, k => if k' = k then some v else qmapLookup rest k

/-- `QMap::insert(k, v)`: replaces the entry for `k` when present, otherwise
appends a fresh entry. -/
def qmapInsert {κ α : Type} [DecidableEq κ] : List (κ × α) → κ → α → List (κ × α)
  | [], k, v => [(k, v)]
  | (k', v') :: rest, k, v =>
      if k' = k then (k, v) :: rest else (k', v') :: qmapInsert rest k v

/-- `QMap::remove(k)`: deletes the entries stored under `k`. -/
def qmapRemove {κ α : Type} [DecidableEq κ] : List (κ × α) → κ → List (κ × α)
  | [], _ => []
  | (k', v') :: rest, k =>
      if k' = k then qmapRemove rest k else (k', v') :: qmapRemove rest k

/-- Number of entries stored under key `k`. -/
def qmapCountKey {κ α : Type} [DecidableEq κ] (m : List (κ × α)) (k : κ) : Nat :=
  (m.filter (fun p => p.1 = k)).length

theorem qmapLookup_insert_self {κ α : Type} [DecidableEq κ]
    (m : List (κ × α)) (k : κ) (v : α) :
    qmapLookup (qmapInsert m k v) k = some v := by
  induction m with
  | nil => simp [qmapInsert, qmapLookup]
  | cons hd tl ih =>
    by_cases h : hd.1 = k
    · simp [qmapInsert, qmapLookup, h]
    · simp [qmapInsert, qmapLookup, h, ih]

theorem qmapLookup_insert_ne {κ α : Type} [DecidableEq κ]
    (m : List (κ × α)) (k u : κ) (v : α) (hne : u ≠ k) :
    qmapLookup (qmapInsert m k v) u = qmapLookup m u := by
  have hku : ¬(k = u) := fun h => hne h.symm
  induction m with
  | nil => simp [qmapInsert, qmapLookup, hku]
  | cons hd tl ih =>
    obtain ⟨k', v'⟩ := hd
    by_cases h : k' = k
    · subst h
      simp [qmapInsert, qmapLookup, hku]
    · simp [qmapInsert, qmapLookup, h, ih]

theorem qmapCountKey_of_not_mem {κ α : Type} [DecidableEq κ]
    (m : List (κ × α)) (k : κ) (h : k ∉ m.map Prod.fst) :
    qmapCountKey m k = 0 := by
  induction m with
  | nil => rfl
  | cons hd tl ih =>
    simp only [List.map_cons, List.mem_cons] at h
    push_neg at h
    have h1 : ¬(hd.1 = k) := fun hh => h.1 hh.symm
    simpa [qmapCountKey, List.filter_cons, h1] using ih h.2

theorem qmapCountKey_remove_self {κ α : Type} [DecidableEq κ]
    (m : List (κ × α)) (k : κ) :
    qmapCountKey (qmapRemove m k) k = 0 := by
  induction m with
  | nil => rfl
  | cons hd tl ih =>
    by_cases h : hd.1 = k
    · simpa [qmapRemove, h] using ih
    · simpa [qmapRemove, h, qmapCountKey, List.filter_cons] using ih

theorem qmapCountKey_insert_self_of_nodup {κ α : Type} [DecidableEq κ]
    (m : List (κ × α)) (k : κ) (v : α) (h : (m.map Prod.fst).Nodup) :
    qmapCountKey (qmapInsert m k v) k = 1 := by
  induction m with
  | nil => simp [qmapInsert, qmapCountKey]
  | cons hd tl ih =>
    obtain ⟨k', v'⟩ := hd
    simp only [List.map_cons, List.nodup_cons] at h
    by_cases hk : k' = k
    · subst hk
      have h0 : qmapCountKey tl k' = 0 := qmapCountKey_of_not_mem tl k' h.1
      simp [qmapInsert, qmapCountKey, List.filter_cons] at h0 ⊢
      simpa [qmapCountKey] using h0
    · simp only [qmapInsert, hk, if_false]
      simpa [qmapCountKey, List.filter_cons, hk] using ih h.2

theorem qmapValue_eq_lookup_getD {κ α : Type} [DecidableEq κ]
    (d : α) (m : List (κ × α)) (k : κ) :
    qmapValue d m k = (qmapLookup m k).getD d := by
  induction m with
  | nil => rfl
  | cons hd tl ih =>
    by_cases h : hd.1 = k <;> simp [qmapValue, qmapLookup, h, ih]

/-! ## NodePermissions (`libraries/networking/src/NodePermissions.h`)

`QVariant` is embedded as an inductive covering the cases the header uses:
strings, booleans, nested maps and the invalid (default-constructed) variant.
-/

inductive Variant : Type where
  | null : Variant
  | str : String → Variant
  | boolean : Bool → Variant
  | vmap : List (String × Variant) → Variant

/-- `QVariant::toString()` on the cases in use: strings convert to
themselves, booleans to `"true"`/`"false"`, others to the empty string. -/
def Variant.asString : Variant → String
  | .str s => s
  | .boolean b => if b then "true" else "false"
  | _ => ""

/-- `QVariant::toBool()`: booleans convert to themselves; a string is true
unless empty, `"0"` or `"false"`; other variants convert to `false`. -/
def Variant.asBool : Variant → Bool
  | .boolean b => b
  | .str s => ¬(s = "" ∨ s = "0" ∨ s = "false")
  | _ => false

/-- The map held by a `QVariant`, empty for non-map variants. -/
def Variant.asMap : Variant → List (String × Variant)
  | .vmap m => m
  | _ => []

/-- `QMap<QString, QVariant>::operator[]` read access: default-constructed
(invalid) variant for an absent key. -/
def variantMapGet (m : List (String × Variant)) (k : String) : Variant :=
  qmapValue Variant.null m k

/-- The permission record of `NodePermissions.h`: an identifier plus six
capability flags, whose default field values mirror the in-class
initializers of the C++ class. -/
structure NodePermissions where
  _id : String
  canConnectToDomain : Bool := true
  canAdjustLocks : Bool := false
  canRezPermanentEntities : Bool := false
  canRezTemporaryEntities : Bool := false
  canWriteToAssetServer : Bool := false
  canConnectPastMaxCapacity : Bool := false
deriving DecidableEq

namespace NodePermissions

def getID (p : NodePermissions) : String := p._id

/-- `NodePermissions()`: the default constructor assigns a freshly generated
UUID string to `_id`; UUID generation is external, so the generated string is
a parameter. -/
def mkFresh (uuid : String) : NodePermissions := { _id := uuid }

/-- `NodePermissions(const QString& name)`. -/
def mkNamed (name : String) : NodePermissions := { _id := name }

/-- `NodePermissions(QMap<QString, QVariant> perms)`. -/
def mkFromMap (perms : List (String × Variant)) : NodePermissions :=
  { _id := (variantMapGet perms "permissions_id").asString
    canConnectToDomain := (variantMapGet perms "id_can_connect").asBool
    canAdjustLocks := (variantMapGet perms "id_can_adjust_locks").asBool
    canRezPermanentEntities := (variantMapGet perms "id_can_rez").asBool
    canRezTemporaryEntities := (variantMapGet perms "id_can_rez_tmp").asBool
    canWriteToAssetServer := (variantMapGet perms "id_can_write_to_asset_server").asBool
    canConnectPastMaxCapacity := (variantMapGet perms "id_can_connect_past_max_capacity").asBool }

/-- `NodePermissions::setAll(bool value)`. -/
def setAll (p : NodePermissions) (value : Bool) : NodePermissions :=
  { p with
    canConnectToDomain := value
    canAdjustLocks := value
    canRezPermanentEntities := value
    canRezTemporaryEntities := value
    canWriteToAssetServer := value
    canConnectPastMaxCapacity := value }

/-- `NodePermissions::toVariant()`: serializes to a `QVariant` holding a
string-keyed map. -/
def toVariant (p : NodePermissions) : Variant :=
  Variant.vmap
    [ ("permissions_id", Variant.str p._id)
    , ("id_can_connect", Variant.boolean p.canConnectToDomain)
    , ("id_can_adjust_locks", Variant.boolean p.canAdjustLocks)
    , ("id_can_rez", Variant.boolean p.canRezPermanentEntities)
    , ("id_can_rez_tmp", Variant.boolean p.canRezTemporaryEntities)
    , ("id_can_write_to_asset_server", Variant.boolean p.canWriteToAssetServer)
    , ("id_can_connect_past_max_capacity", Variant.boolean p.canConnectPastMaxCapacity) ]

/-- Modelled from the spec: `NodePermissions::operator|=` is declared in
`NodePermissions.h` but implemented in `NodePermissions.cpp`, which is not
among the visible sources.  The spec states "Merge operation is boolean OR
across all flags, identifier untouched." -/
def orAssign (p rhs : NodePermissions) : NodePermissions :=
  { p with
    canConnectToDomain := p.canConnectToDomain || rhs.canConnectToDomain
    canAdjustLocks := p.canAdjustLocks || rhs.canAdjustLocks
    canRezPermanentEntities := p.canRezPermanentEntities || rhs.canRezPermanentEntities
    canRezTemporaryEntities := p.canRezTemporaryEntities || rhs.canRezTemporaryEntities
    canWriteToAssetServer := p.canWriteToAssetServer || rhs.canWriteToAssetServer
    canConnectPastMaxCapacity := p.canConnectPastMaxCapacity || rhs.canConnectPastMaxCapacity }

end NodePermissions

/-- `const NodePermissions DEFAULT_AGENT_PERMISSIONS;` — built with the
default constructor, whose generated UUID string is a parameter. -/
def DEFAULT_AGENT_PERMISSIONS (uuid : String) : NodePermissions :=
  NodePermissions.mkFresh uuid

/-! ## AccountManager (`libraries/shared/src/AccountManager.cpp`)

`QUrl` is embedded with the components the code manipulates: the part before
the path (scheme and authority), the path, and the query string.  Time is a
`Nat` passed explicitly where the C++ consults the current time. -/

/-- Character-level worker for `QString::replace`: scans left to right,
replacing each non-overlapping occurrence of `pat` and resuming after the
replaced part.  The fuel argument (instantiated with the string length)
makes the recursion structural; one character or one whole match is consumed
per step, so `s.length` fuel always suffices. -/
def replaceFuel (pat rep : List Char) : Nat → List Char → List Char
  | _, [] => []
  | 0, s => s
  | Nat.succ fuel, c :: rest =>
      if !pat.isEmpty && pat.isPrefixOf (c :: rest) then
        rep ++ replaceFuel pat rep fuel ((c :: rest).drop pat.length)
      else
        c :: replaceFuel pat rep fuel rest

/-- `QString::replace(before, after)`: replaces every occurrence of
`pattern` in `s` by `replacement`. -/
def qstringReplace (s pattern replacement : String) : String :=
  String.mk (replaceFuel pattern.toList replacement.toList s.toList.length s.toList)

structure Url where
  base : String
  path : String := ""
  query : String := ""
deriving DecidableEq

namespace Url

/-- `QUrl::setPath`. -/
def setPath (u : Url) (p : String) : Url := { u with path := p }

/-- `QUrl::setQuery`. -/
def setQuery (u : Url) (q : String) : Url := { u with query := q }

/-- `QUrl::toString`: scheme and authority, then path, then query. -/
def urlString (u : Url) : String :=
  u.base ++ u.path ++ (if u.query = "" then "" else "?" ++ u.query)

end Url

/-- Modelled from the spec: the `OAuthAccessToken` class lives in
`OAuthAccessToken.{h,cpp}`, which are not among the visible sources.  The
spec gives `AccessToken: { token: string, tokenType: string, expiry:
timestamp }` with "expired" a pure function of `expiry` vs current time; a
default-constructed token is empty. -/
structure OAuthAccessToken where
  token : String := ""
  tokenType : String := ""
  expiresAt : Nat := 0
deriving DecidableEq

/-- Modelled from the spec: "expired" compares the expiry timestamp against
the current time — expired once the expiry has passed. -/
def OAuthAccessToken.isExpired (t : OAuthAccessToken) (now : Nat) : Bool :=
  t.expiresAt < now

/-- JSON values, covering the fields of a token response. -/
inductive JsonValue : Type where
  | str : String → JsonValue
  | num : Nat → JsonValue
deriving DecidableEq

/-- `QJsonValue::toString()` on the embedded cases: non-strings give the
empty string. -/
def JsonValue.asString : JsonValue → String
  | .str s => s
  | .num _ => ""

/-- Numeric reading of a JSON value (used for `expires_in`). -/
def JsonValue.asNat : JsonValue → Nat
  | .str _ => 0
  | .num n => n

/-- A parsed JSON object, as a string-keyed map. -/
def JsonObject : Type := List (String × JsonValue)

/-- `QJsonObject::contains`. -/
def jsonContains (o : JsonObject) (k : String) : Bool :=
  (qmapLookup o k).isSome

/-- `QJsonObject::operator[]` via a default of the empty string. -/
def jsonGet (o : JsonObject) (k : String) : JsonValue :=
  qmapValue (JsonValue.str "") o k

/-- Modelled from the spec: `DataServerAccountInfo` lives in
`DataServerAccountInfo.{h,cpp}`, which are not among the visible sources.
The spec says it "owns one AccessToken"; its JSON constructor reads
`access_token`, `token_type` and `expires_in` from the token response, the
expiry being the current time plus `expires_in`. -/
structure DataServerAccountInfo where
  accessToken : OAuthAccessToken := {}
deriving DecidableEq

/-- Modelled from the spec: `DataServerAccountInfo(const QJsonObject&)`. -/
def DataServerAccountInfo.fromJson (now : Nat) (body : JsonObject) : DataServerAccountInfo :=
  { accessToken :=
      { token := (jsonGet body "access_token").asString
        tokenType := (jsonGet body "token_type").asString
        expiresAt := now + (jsonGet body "expires_in").asNat } }

/-- Callback receivers are identified by object identity; `Nat` stands for
the object pointer, `none` for a null pointer.  Modelled from the spec for
the parts declared only in `AccountManager.h`: a `JSONCallbackParameters`
pairs a success receiver/method with an error receiver/method, and is empty
when neither receiver is set. -/
structure JSONCallbackParameters where
  jsonCallbackReceiver : Option Nat := none
  jsonCallbackMethod : String := ""
  errorCallbackReceiver : Option Nat := none
  errorCallbackMethod : String := ""
deriving DecidableEq

/-- Modelled from the spec: `JSONCallbackParameters::isEmpty()` — no
receiver registered for either outcome. -/
def JSONCallbackParameters.isEmpty (c : JSONCallbackParameters) : Bool :=
  c.jsonCallbackReceiver.isNone && c.errorCallbackReceiver.isNone

/-- `QNetworkAccessManager::Operation` values. -/
inductive Operation : Type where
  | head | get | put | post | deleteResource | custom
deriving DecidableEq

/-- The mutable state of the `AccountManager` singleton.  Pending network
replies are identified by `Nat` (standing for the `QNetworkReply*`). -/
structure AMState where
  rootURL : Url
  username : String := ""
  accounts : List (Url × DataServerAccountInfo) := []
  pendingCallbackMap : List (Nat × JSONCallbackParameters) := []
deriving DecidableEq

/-- Signals emitted by the account manager. -/
inductive Signal : Type where
  | authenticationRequired
  | receivedAccessToken (rootURL : Url)
deriving DecidableEq

/-- A write to the persistent `QSettings` store: group, key, stored value. -/
structure SettingsWrite where
  group : String
  key : String
  value : DataServerAccountInfo
deriving DecidableEq

/-- A dispatched network request: URL, headers, operation, request body. -/
structure NetworkCall where
  url : Url
  headers : List (String × String) := []
  op : Operation
  body : String := ""
deriving DecidableEq

/-- A callback invocation performed through `QMetaObject::invokeMethod`. -/
inductive Invocation : Type where
  | success (receiver : Nat) (method : String) (json : JsonObject)
  | failure (receiver : Nat) (method : String) (errorCode : Nat) (errorString : String)

def ACCOUNTS_GROUP : String := "accounts"

/-- `AccountManager::setRootURL`. -/
def setRootURL (s : AMState) (rootURL : Url) : AMState :=
  if s.rootURL ≠ rootURL then
    { s with rootURL := rootURL, username := "" }
  else
    s

/-- `AccountManager::hasValidAccessToken`: reads the account stored for the
current root URL (a default-constructed `DataServerAccountInfo` when absent)
and rejects an empty or expired token. -/
def hasValidAccessToken (s : AMState) (now : Nat) : Bool :=
  let accountInfo := qmapValue {} s.accounts s.rootURL
  if accountInfo.accessToken.token = "" || accountInfo.accessToken.isExpired now then
    false
  else
    true

/-- `AccountManager::checkAndSignalForAccessToken`: returns the validity
check, raising `authenticationRequired` when it fails. -/
def checkAndSignalForAccessToken (s : AMState) (now : Nat) : Bool × List Signal :=
  let hasToken := hasValidAccessToken s now
  if !hasToken then
    (hasToken, [Signal.authenticationRequired])
  else
    (hasToken, [])

/-- `AccountManager::invokedRequest` (the slot `authenticatedRequest` queues
through `QMetaObject::invokeMethod`): when a valid token exists, builds the
request URL from the root URL, the given path and the stored token as the
`access_token` query parameter, dispatches GET or POST (other verbs hit the
default switch case and no reply is created), and registers the callback
parameters under the fresh reply when they are non-empty.  Returns the new
state and the dispatched call, `none` when nothing was sent. -/
def invokedRequest (s : AMState) (now : Nat) (path : String) (operation : Operation)
    (callbackParams : JSONCallbackParameters) (dataByteArray : String)
    (freshReply : Nat) : AMState × Option NetworkCall :=
  if hasValidAccessToken s now then
    let requestURL :=
      Url.setQuery (Url.setPath s.rootURL path)
        ("access_token=" ++ (qmapValue {} s.accounts s.rootURL).accessToken.token)
    let networkReply : Option NetworkCall :=
      match operation with
      | Operation.get => some { url := requestURL, op := Operation.get }
      | Operation.post =>
          some { url := requestURL
                 headers := [("Content-Type", "application/x-www-form-urlencoded")]
                 op := Operation.post
                 body := dataByteArray }
      | _ => none
    match networkReply with
    | some call =>
        if !callbackParams.isEmpty then
          ({ s with pendingCallbackMap := qmapInsert s.pendingCallbackMap freshReply callbackParams },
           some call)
        else
          (s, some call)
    | none => (s, none)
  else
    (s, none)

/-- `AccountManager::authenticatedRequest` queues `invokedRequest` on the
manager's thread with the same arguments. -/
def authenticatedRequest (s : AMState) (now : Nat) (path : String) (operation : Operation)
    (callbackParams : JSONCallbackParameters) (dataByteArray : String)
    (freshReply : Nat) : AMState × Option NetworkCall :=
  invokedRequest s now path operation callbackParams dataByteArray freshReply

/-- `AccountManager::passSuccessToCallback`: looks up the callback registered
for the finished reply; when a success receiver exists, invokes it with the
parsed JSON body and removes the map entry, otherwise only logs. -/
def passSuccessToCallback (s : AMState) (requestReply : Nat) (body : JsonObject) :
    AMState × List Invocation :=
  let callbackParams := qmapValue {} s.pendingCallbackMap requestReply
  match callbackParams.jsonCallbackReceiver with
  | some receiver =>
      ({ s with pendingCallbackMap := qmapRemove s.pendingCallbackMap requestReply },
       [Invocation.success receiver callbackParams.jsonCallbackMethod body])
  | none => (s, [])

/-- `AccountManager::passErrorToCallback`: looks up the callback registered
for the errored reply; when an error receiver exists, invokes it with the
error code and message and removes the map entry, otherwise only logs. -/
def passErrorToCallback (s : AMState) (requestReply : Nat) (errorCode : Nat)
    (errorString : String) : AMState × List Invocation :=
  let callbackParams := qmapValue {} s.pendingCallbackMap requestReply
  match callbackParams.errorCallbackReceiver with
  | some receiver =>
      ({ s with pendingCallbackMap := qmapRemove s.pendingCallbackMap requestReply },
       [Invocation.failure receiver callbackParams.errorCallbackMethod errorCode errorString])
  | none => (s, [])

/-- `AccountManager::requestFinished`: parses the token response.  With no
`error` field and all of `access_token`, `expires_in`, `token_type` present,
stores a fresh account under the reply URL with its path cleared, emits
`receivedAccessToken`, and persists the account to settings (group
`accounts`, key = root URL string with `//` replaced by `slashslash`); any
other body is only logged.  Returns the new state, the emitted signals and
the settings writes. -/
def requestFinished (s : AMState) (now : Nat) (replyURL : Url) (body : JsonObject) :
    AMState × List Signal × List SettingsWrite :=
  if !jsonContains body "error" then
    if !jsonContains body "access_token" || !jsonContains body "expires_in"
        || !jsonContains body "token_type" then
      (s, [], [])
    else
      let rootURL := Url.setPath replyURL ""
      let freshAccountInfo := DataServerAccountInfo.fromJson now body
      ({ s with accounts := qmapInsert s.accounts rootURL freshAccountInfo },
       [Signal.receivedAccessToken rootURL],
       [{ group := ACCOUNTS_GROUP
          key := qstringReplace (Url.urlString rootURL) "//" "slashslash"
          value := freshAccountInfo }])
  else
    (s, [], [])

/-! ## Claims about NodePermissions -/

/-- C5: for every pair of `NodePermissions` values `a` and `b`, after
`a |= b` each of the six capability flags of `a` equals the logical OR of
the corresponding flags of the original `a` and of `b`, and the identifier
of `a` (the left-hand operand) is unchanged. -/
theorem orAssign_is_flagwise_or (a b : NodePermissions) :
    (a.orAssign b).canConnectToDomain = (a.canConnectToDomain || b.canConnectToDomain)
    ∧ (a.orAssign b).canAdjustLocks = (a.canAdjustLocks || b.canAdjustLocks)
    ∧ (a.orAssign b).canRezPermanentEntities
        = (a.canRezPermanentEntities || b.canRezPermanentEntities)
    ∧ (a.orAssign b).canRezTemporaryEntities
        = (a.canRezTemporaryEntities || b.canRezTemporaryEntities)
    ∧ (a.orAssign b).canWriteToAssetServer
        = (a.canWriteToAssetServer || b.canWriteToAssetServer)
    ∧ (a.orAssign b).canConnectPastMaxCapacity
        = (a.canConnectPastMaxCapacity || b.canConnectPastMaxCapacity)
    ∧ (a.orAssign b).getID = a.getID :=
  ⟨rfl, rfl, rfl, rfl, rfl, rfl, rfl⟩

/-- C9: for every `NodePermissions` value `p`, constructing a
`NodePermissions` from the map produced by `p.toVariant()` yields a value
whose identifier and all six capability flags equal those of `p`. -/
theorem toVariant_roundtrip (p : NodePermissions) :
    NodePermissions.mkFromMap (p.toVariant).asMap = p := by
  cases p with
  | mk i c1 c2 c3 c4 c5 c6 =>
    cases c1 <;> cases c2 <;> cases c3 <;> cases c4 <;> cases c5 <;> cases c6 <;> rfl

/-- C10: every newly constructed `NodePermissions` (default with a fresh id,
or named), before any flag is set, can connect to the domain and has the
other five capability flags false; in particular `DEFAULT_AGENT_PERMISSIONS`
permits connecting to the domain. -/
theorem new_permissions_defaults (uuid name : String) :
    (NodePermissions.mkFresh uuid).canConnectToDomain = true
    ∧ (NodePermissions.mkFresh uuid).canAdjustLocks = false
    ∧ (NodePermissions.mkFresh uuid).canRezPermanentEntities = false
    ∧ (NodePermissions.mkFresh uuid).canRezTemporaryEntities = false
    ∧ (NodePermissions.mkFresh uuid).canWriteToAssetServer = false
    ∧ (NodePermissions.mkFresh uuid).canConnectPastMaxCapacity = false
    ∧ (NodePermissions.mkNamed name).canConnectToDomain = true
    ∧ (NodePermissions.mkNamed name).canAdjustLocks = false
    ∧ (NodePermissions.mkNamed name).canRezPermanentEntities = false
    ∧ (NodePermissions.mkNamed name).canRezTemporaryEntities = false
    ∧ (NodePermissions.mkNamed name).canWriteToAssetServer = false
    ∧ (NodePermissions.mkNamed name).canConnectPastMaxCapacity = false
    ∧ (DEFAULT_AGENT_PERMISSIONS uuid).canConnectToDomain = true :=
  ⟨rfl, rfl, rfl, rfl, rfl, rfl, rfl, rfl, rfl, rfl, rfl, rfl, rfl⟩

/-! ## Claims about the AccountManager -/

/-- Shared helper: characterization of `hasValidAccessToken` in terms of the
optional lookup in the accounts map. -/
theorem hasValidAccessToken_lookup_iff (s : AMState) (now : Nat) :
    hasValidAccessToken s now = true
      ↔ ∃ info, qmapLookup s.accounts s.rootURL = some info
          ∧ info.accessToken.token ≠ ""
          ∧ info.accessToken.isExpired now = false := by
  unfold hasValidAccessToken
  rw [qmapValue_eq_lookup_getD]
  cases hl : qmapLookup s.accounts s.rootURL with
  | none => simp
  | some info =>
    by_cases ht : info.accessToken.token = ""
    · simp [ht]
    · by_cases he : info.accessToken.isExpired now <;> simp [ht, he]

/-- C2: `hasValidAccessToken()` returns true if and only if the accounts map
has an entry for the current root URL whose access token is non-empty and
not expired (so false when no entry exists, and false once the expiry has
passed). -/
theorem hasValidAccessToken_true_iff (s : AMState) (now : Nat) :
    hasValidAccessToken s now = true
      ↔ ∃ info, qmapLookup s.accounts s.rootURL = some info
          ∧ info.accessToken.token ≠ ""
          ∧ info.accessToken.isExpired now = false :=
  hasValidAccessToken_lookup_iff s now

/-- C7: `setRootURL(u)` makes `u` the root URL, clears the cached username
exactly when `u` differs from the current root URL, and touches nothing
else. -/
theorem setRootURL_updates_root_and_username (s : AMState) (u : Url) :
    (setRootURL s u).rootURL = u
    ∧ (setRootURL s u).username = (if u = s.rootURL then s.username else "")
    ∧ (setRootURL s u).accounts = s.accounts
    ∧ (setRootURL s u).pendingCallbackMap = s.pendingCallbackMap := by
  by_cases h : s.rootURL = u
  · simp [setRootURL, h]
  · have h' : ¬(u = s.rootURL) := fun hh => h hh.symm
    simp [setRootURL, h, h']

/-- C3: when no valid access token exists for the current root URL,
`authenticatedRequest` (hence `invokedRequest`) performs no network call and
leaves the whole state — accounts map and pending-callback map included —
unchanged. -/
theorem invokedRequest_without_token_is_noop (s : AMState) (now : Nat)
    (path : String) (operation : Operation) (callbackParams : JSONCallbackParameters)
    (dataByteArray : String) (freshReply : Nat)
    (h : hasValidAccessToken s now = false) :
    invokedRequest s now path operation callbackParams dataByteArray freshReply = (s, none)
    ∧ authenticatedRequest s now path operation callbackParams dataByteArray freshReply
        = (s, none) := by
  unfold authenticatedRequest invokedRequest
  simp [h]

/-- Witness for C3 at a concrete state with no stored account. -/
theorem invokedRequest_without_token_is_noop_witness :
    (hasValidAccessToken { rootURL := { base := "https://data.example" } } 0 = false)
    ∧ invokedRequest { rootURL := { base := "https://data.example" } } 0 "/api/v1/users"
        Operation.get {} "" 7
        = ({ rootURL := { base := "https://data.example" } }, none) :=
  ⟨rfl, (invokedRequest_without_token_is_noop { rootURL := { base := "https://data.example" } }
      0 "/api/v1/users" Operation.get {} "" 7 rfl).1⟩

/-- C8: with a valid token and a GET or POST operation, `invokedRequest`
dispatches a request whose URL is the current root URL with its path set to
the given path and whose query string carries the token stored for the
current root URL as `access_token=<token>`; the token appears in no header
(the only header ever set is the POST content type). -/
theorem invokedRequest_token_in_query (s : AMState) (now : Nat) (path : String)
    (operation : Operation) (callbackParams : JSONCallbackParameters)
    (dataByteArray : String) (freshReply : Nat)
    (hvalid : hasValidAccessToken s now = true)
    (hop : operation = Operation.get ∨ operation = Operation.post) :
    ∃ call info,
      (invokedRequest s now path operation callbackParams dataByteArray freshReply).2
          = some call
      ∧ call.op = operation
      ∧ qmapLookup s.accounts s.rootURL = some info
      ∧ call.url.base = s.rootURL.base
      ∧ call.url.path = path
      ∧ call.url.query = "access_token=" ++ info.accessToken.token
      ∧ ∀ hv ∈ call.headers,
          hv = ("Content-Type", "application/x-www-form-urlencoded") := by
  obtain ⟨info, hl, -, -⟩ := (hasValidAccessToken_lookup_iff s now).mp hvalid
  have hval : qmapValue ({} : DataServerAccountInfo) s.accounts s.rootURL = info := by
    rw [qmapValue_eq_lookup_getD, hl]
    rfl
  rcases hop with h | h
  · subst h
    refine ⟨{ url := Url.setQuery (Url.setPath s.rootURL path)
                ("access_token=" ++ info.accessToken.token)
              op := Operation.get },
            info, ?_, rfl, hl, rfl, rfl, rfl, by simp⟩
    unfold invokedRequest
    simp only [hvalid, if_true, hval]
    by_cases hcb : callbackParams.isEmpty <;> simp [hcb]
  · subst h
    refine ⟨{ url := Url.setQuery (Url.setPath s.rootURL path)
                ("access_token=" ++ info.accessToken.token)
              headers := [("Content-Type", "application/x-www-form-urlencoded")]
              op := Operation.post
              body := dataByteArray },
            info, ?_, rfl, hl, rfl, rfl, rfl, by simp⟩
    unfold invokedRequest
    simp only [hvalid, if_true, hval]
    by_cases hcb : callbackParams.isEmpty <;> simp [hcb]

/-- Witness for C8 at a concrete state holding a fresh token. -/
theorem invokedRequest_token_in_query_witness :
    (hasValidAccessToken
        { rootURL := { base := "https://data.example" }
          accounts := [({ base := "https://data.example" },
                        { accessToken := { token := "abc", tokenType := "bearer",
                                           expiresAt := 3600 } })] } 10 = true)
    ∧ ∃ call info,
        (invokedRequest
            { rootURL := { base := "https://data.example" }
              accounts := [({ base := "https://data.example" },
                            { accessToken := { token := "abc", tokenType := "bearer",
                                               expiresAt := 3600 } })] }
            10 "/api/v1/users" Operation.get {} "" 7).2 = some call
        ∧ call.op = Operation.get
        ∧ qmapLookup
            ([({ base := "https://data.example" },
               { accessToken := { token := "abc", tokenType := "bearer",
                                  expiresAt := 3600 } })] : List (Url × DataServerAccountInfo))
            { base := "https://data.example" } = some info
        ∧ call.url.base = ({ base := "https://data.example" } : Url).base
        ∧ call.url.path = "/api/v1/users"
        ∧ call.url.query = "access_token=" ++ info.accessToken.token
        ∧ ∀ hv ∈ call.headers,
            hv = ("Content-Type", "application/x-www-form-urlencoded") :=
  ⟨rfl, invokedRequest_token_in_query
      { rootURL := { base := "https://data.example" }
        accounts := [({ base := "https://data.example" },
                      { accessToken := { token := "abc", tokenType := "bearer",
                                         expiresAt := 3600 } })] }
      10 "/api/v1/users" Operation.get {} "" 7 rfl (Or.inl rfl)⟩

/-- C1: a token response holding `access_token`, `expires_in` and
`token_type` and no `error` field makes `requestFinished` store exactly one
account entry keyed by the reply URL with its path stripped, emit exactly
one `receivedAccessToken` signal, and write the entry to settings group
`accounts` under the root URL string with `//` replaced by `slashslash`;
nothing else changes. -/
theorem requestFinished_success_stores_account (s : AMState) (now : Nat)
    (replyURL : Url) (body : JsonObject)
    (herr : jsonContains body "error" = false)
    (hat : jsonContains body "access_token" = true)
    (hei : jsonContains body "expires_in" = true)
    (htt : jsonContains body "token_type" = true) :
    (requestFinished s now replyURL body).1.accounts
        = qmapInsert s.accounts (Url.setPath replyURL "")
            (DataServerAccountInfo.fromJson now body)
    ∧ qmapLookup (requestFinished s now replyURL body).1.accounts
        (Url.setPath replyURL "")
        = some (DataServerAccountInfo.fromJson now body)
    ∧ (requestFinished s now replyURL body).2.1
        = [Signal.receivedAccessToken (Url.setPath replyURL "")]
    ∧ (requestFinished s now replyURL body).2.2
        = [{ group := "accounts"
             key := qstringReplace (Url.urlString (Url.setPath replyURL "")) "//" "slashslash"
             value := DataServerAccountInfo.fromJson now body }]
    ∧ (requestFinished s now replyURL body).1.rootURL = s.rootURL
    ∧ (requestFinished s now replyURL body).1.username = s.username
    ∧ (requestFinished s now replyURL body).1.pendingCallbackMap
        = s.pendingCallbackMap := by
  unfold requestFinished
  simp [herr, hat, hei, htt, ACCOUNTS_GROUP, qmapLookup_insert_self]

/-- Witness for C1 on the spec's example response
`{access_token:"abc", token_type:"bearer", expires_in:3600}`. -/
theorem requestFinished_success_stores_account_witness :
    (jsonContains [("access_token", JsonValue.str "abc"),
                   ("token_type", JsonValue.str "bearer"),
                   ("expires_in", JsonValue.num 3600)] "error" = false)
    ∧ (jsonContains [("access_token", JsonValue.str "abc"),
                     ("token_type", JsonValue.str "bearer"),
                     ("expires_in", JsonValue.num 3600)] "access_token" = true)
    ∧ (requestFinished { rootURL := { base := "https://data.example" } } 0
          { base := "https://data.example", path := "/oauth/token" }
          [("access_token", JsonValue.str "abc"),
           ("token_type", JsonValue.str "bearer"),
           ("expires_in", JsonValue.num 3600)]).2.1
        = [Signal.receivedAccessToken { base := "https://data.example", path := "" }]
    ∧ (requestFinished { rootURL := { base := "https://data.example" } } 0
          { base := "https://data.example", path := "/oauth/token" }
          [("access_token", JsonValue.str "abc"),
           ("token_type", JsonValue.str "bearer"),
           ("expires_in", JsonValue.num 3600)]).2.2
        = [{ group := "accounts"
             key := "https:slashslashdata.example"
             value := { accessToken := { token := "abc", tokenType := "bearer",
                                         expiresAt := 3600 } } }] :=
  ⟨rfl, rfl,
   (requestFinished_success_stores_account { rootURL := { base := "https://data.example" } } 0
      { base := "https://data.example", path := "/oauth/token" }
      [("access_token", JsonValue.str "abc"),
       ("token_type", JsonValue.str "bearer"),
       ("expires_in", JsonValue.num 3600)] rfl rfl rfl rfl).2.2.1,
   by
    have h := (requestFinished_success_stores_account
        { rootURL := { base := "https://data.example" } } 0
        { base := "https://data.example", path := "/oauth/token" }
        [("access_token", JsonValue.str "abc"),
         ("token_type", JsonValue.str "bearer"),
         ("expires_in", JsonValue.num 3600)] rfl rfl rfl rfl).2.2.2.1
    rw [h]
    rfl⟩

/-- C4: a token response carrying an `error` field, or missing any of
`access_token`, `expires_in` or `token_type`, leaves the state untouched:
no account stored, no signal emitted, no settings write. -/
theorem requestFinished_failure_is_noop (s : AMState) (now : Nat)
    (replyURL : Url) (body : JsonObject)
    (h : jsonContains body "error" = true
      ∨ jsonContains body "access_token" = false
      ∨ jsonContains body "expires_in" = false
      ∨ jsonContains body "token_type" = false) :
    requestFinished s now replyURL body = (s, [], []) := by
  unfold requestFinished
  by_cases herr : jsonContains body "error" = true
  · simp [herr]
  · have herr' : jsonContains body "error" = false := by
      cases hh : jsonContains body "error" <;> simp_all
    rcases h with h | h | h | h
    · exact absurd h herr
    · simp [herr', h]
    · simp [herr', h]
    · simp [herr', h]

/-- Witness for C4 on an error response body. -/
theorem requestFinished_failure_is_noop_witness :
    (jsonContains [("error", JsonValue.str "invalid_grant")] "error" = true)
    ∧ requestFinished { rootURL := { base := "https://data.example" } } 0
        { base := "https://data.example", path := "/oauth/token" }
        [("error", JsonValue.str "invalid_grant")]
        = ({ rootURL := { base := "https://data.example" } }, [], []) :=
  ⟨rfl, requestFinished_failure_is_noop { rootURL := { base := "https://data.example" } } 0
      { base := "https://data.example", path := "/oauth/token" }
      [("error", JsonValue.str "invalid_grant")] (Or.inl rfl)⟩

/-- C6 counterexample: a pending entry whose callback spec registers only an
error receiver is NOT removed when the success response for its request is
delivered — `passSuccessToCallback` leaves the map unchanged (removal would
have emptied it), refuting "removed exactly once when the request's response
is delivered, whether the response is a success or an error". -/
theorem pending_entry_survives_success_delivery :
    (passSuccessToCallback
        { rootURL := { base := "https://data.example" }
          pendingCallbackMap :=
            ([(0, { errorCallbackReceiver := some 1, errorCallbackMethod := "handleError" })]
              : List (Nat × JSONCallbackParameters)) }
        0 ([] : JsonObject)).1.pendingCallbackMap
      = ([(0, { errorCallbackReceiver := some 1, errorCallbackMethod := "handleError" })]
          : List (Nat × JSONCallbackParameters))
    ∧ qmapRemove
        ([(0, { errorCallbackReceiver := some 1, errorCallbackMethod := "handleError" })]
          : List (Nat × JSONCallbackParameters)) 0
      = [] :=
  ⟨rfl, rfl⟩

/-- C6 (amended): registering a non-empty callback spec for a dispatched
request inserts exactly one pending entry for it; when its response is
delivered the entry is removed precisely when the spec has a receiver for
that response kind (success receiver for a success response, error receiver
for an error response), and remains in the map otherwise. -/
theorem pending_callback_lifecycle (s : AMState) (now : Nat) (path : String)
    (operation : Operation) (callbackParams : JSONCallbackParameters)
    (dataByteArray : String) (freshReply reply : Nat) (body : JsonObject)
    (errorCode : Nat) (errorString : String)
    (hvalid : hasValidAccessToken s now = true)
    (hop : operation = Operation.get ∨ operation = Operation.post)
    (hcb : callbackParams.isEmpty = false)
    (hnodup : (s.pendingCallbackMap.map Prod.fst).Nodup) :
    ((invokedRequest s now path operation callbackParams dataByteArray
        freshReply).1.pendingCallbackMap
      = qmapInsert s.pendingCallbackMap freshReply callbackParams)
    ∧ qmapCountKey
        (invokedRequest s now path operation callbackParams dataByteArray
          freshReply).1.pendingCallbackMap freshReply = 1
    ∧ ((passSuccessToCallback s reply body).1.pendingCallbackMap
        = if (qmapValue {} s.pendingCallbackMap reply).jsonCallbackReceiver.isSome
          then qmapRemove s.pendingCallbackMap reply
          else s.pendingCallbackMap)
    ∧ ((passErrorToCallback s reply errorCode errorString).1.pendingCallbackMap
        = if (qmapValue {} s.pendingCallbackMap reply).errorCallbackReceiver.isSome
          then qmapRemove s.pendingCallbackMap reply
          else s.pendingCallbackMap)
    ∧ qmapCountKey (qmapRemove s.pendingCallbackMap reply) reply = 0 := by
  have hreg : (invokedRequest s now path operation callbackParams dataByteArray
      freshReply).1.pendingCallbackMap
      = qmapInsert s.pendingCallbackMap freshReply callbackParams := by
    unfold invokedRequest
    rcases hop with h | h <;> subst h <;> simp [hvalid, hcb]
  refine ⟨hreg, ?_, ?_, ?_, qmapCountKey_remove_self _ _⟩
  · rw [hreg]
    exact qmapCountKey_insert_self_of_nodup _ _ _ hnodup
  · unfold passSuccessToCallback
    cases hr : (qmapValue {} s.pendingCallbackMap reply).jsonCallbackReceiver <;>
      simp [hr]
  · unfold passErrorToCallback
    cases hr : (qmapValue {} s.pendingCallbackMap reply).errorCallbackReceiver <;>
      simp [hr]

/-- Witness for the amended C6 at a concrete state with a valid token, one
pending entry holding both receivers, and a fresh GET request. -/
theorem pending_callback_lifecycle_witness :
    (hasValidAccessToken
        { rootURL := { base := "https://data.example" }
          accounts := [({ base := "https://data.example" },
                        { accessToken := { token := "abc", tokenType := "bearer",
                                           expiresAt := 3600 } })]
          pendingCallbackMap :=
            [(5, { jsonCallbackReceiver := some 2, jsonCallbackMethod := "ok",
                   errorCallbackReceiver := some 3, errorCallbackMethod := "err" })] }
        10 = true)
    ∧ (({ jsonCallbackReceiver := some 2, jsonCallbackMethod := "ok",
          errorCallbackReceiver := some 3,
          errorCallbackMethod := "err" } : JSONCallbackParameters).isEmpty = false)
    ∧ (([(5, { jsonCallbackReceiver := some 2, jsonCallbackMethod := "ok",
               errorCallbackReceiver := some 3, errorCallbackMethod := "err" })]
          : List (Nat × JSONCallbackParameters)).map Prod.fst).Nodup
    ∧ ((invokedRequest
          { rootURL := { base := "https://data.example" }
            accounts := [({ base := "https://data.example" },
                          { accessToken := { token := "abc", tokenType := "bearer",
                                             expiresAt := 3600 } })]
            pendingCallbackMap :=
              [(5, { jsonCallbackReceiver := some 2, jsonCallbackMethod := "ok",
                     errorCallbackReceiver := some 3, errorCallbackMethod := "err" })] }
          10 "/api/v1/users" Operation.get
          { jsonCallbackReceiver := some 2, jsonCallbackMethod := "ok",
            errorCallbackReceiver := some 3, errorCallbackMethod := "err" }
          "" 9).1.pendingCallbackMap
        = qmapInsert
            [(5, { jsonCallbackReceiver := some 2, jsonCallbackMethod := "ok",
                   errorCallbackReceiver := some 3, errorCallbackMethod := "err" })]
            9
            { jsonCallbackReceiver := some 2, jsonCallbackMethod := "ok",
              errorCallbackReceiver := some 3, errorCallbackMethod := "err" })
    ∧ ((passSuccessToCallback
          { rootURL := { base := "https://data.example" }
            accounts := [({ base := "https://data.example" },
                          { accessToken := { token := "abc", tokenType := "bearer",
                                             expiresAt := 3600 } })]
            pendingCallbackMap :=
              [(5, { jsonCallbackReceiver := some 2, jsonCallbackMethod := "ok",
                     errorCallbackReceiver := some 3, errorCallbackMethod := "err" })] }
          5 ([] : JsonObject)).1.pendingCallbackMap = []) := by
  have h := pending_callback_lifecycle
      { rootURL := { base := "https://data.example" }
        accounts := [({ base := "https://data.example" },
                      { accessToken := { token := "abc", tokenType := "bearer",
                                         expiresAt := 3600 } })]
        pendingCallbackMap :=
          [(5, { jsonCallbackReceiver := some 2, jsonCallbackMethod := "ok",
                 errorCallbackReceiver := some 3, errorCallbackMethod := "err" })] }
      10 "/api/v1/users" Operation.get
      { jsonCallbackReceiver := some 2, jsonCallbackMethod := "ok",
        errorCallbackReceiver := some 3, errorCallbackMethod := "err" }
      "" 9 5 ([] : JsonObject) 0 "timeout"
      rfl (Or.inl rfl) rfl (by simp)
  exact ⟨rfl, rfl, by simp, h.1, by rw [h.2.2.1]; rfl⟩

end Vircadia
